import Mathlib

/-!
Verification development for the strands-ui repository.

The repository wires the Strands agent framework to an HTTP/WebSocket
front end.  This file gives a shallow embedding of the event-normalization
layer (src/backend/ui_hooks.py, src/ui_hooks.py), the session store and
lifecycle controller (src/backend/agent_session.py, src/backend/main.py)
and the standalone agent server listing endpoints (src/agent_server.py),
and proves the claimed properties about them.

Python values flowing through the normalizer (message content blocks,
tool results, and so on) are modelled by the JSON-like type `Value`.
Python code that can raise a TypeError while extracting text is modelled
with `Except Unit`.  Timestamps and the session-id field stamped onto
every event are ambient data that none of the claims depend on; they are
omitted from the event records.
-/

namespace StrandsUI

/-- JSON-like Python values: None, bool, int, str, list, dict.
Dicts are association lists; Python dicts have unique keys, and lookup
takes the first binding, which agrees with that. -/
inductive Value where
  | vnull
  | vbool (b : Bool)
  | vint (n : Int)
  | vstr (s : String)
  | vlist (xs : List Value)
  | vdict (fields : List (String × Value))

/-- Python dict lookup `d.get(k)`: `some` when the key is present. -/
def getKey (d : List (String × Value)) (k : String) : Option Value :=
  List.lookup k d

/-- Python truthiness `bool(v)` for the modelled values. -/
def truthy : Value → Bool
  | .vnull => false
  | .vbool b => b
  | .vint n => n != 0
  | .vstr s => s != ""
  | .vlist xs => !xs.isEmpty
  | .vdict d => !d.isEmpty

/-- Python equality test `v == s` between an optional looked-up value and a
string literal: true exactly when the value is present and is that string. -/
def optEqStr (v : Option Value) (s : String) : Bool :=
  match v with
  | some (.vstr t) => t == s
  | _ => false

mutual
/-- Python `repr` of a value (string escaping inside reprs is not modelled;
no claim depends on the rendered text). -/
def pyRepr : Value → String
  | .vnull => "None"
  | .vbool b => if b then "True" else "False"
  | .vint n => toString n
  | .vstr s => "\x27" ++ s ++ "\x27"
  | .vlist xs => "[" ++ pyReprList xs ++ "]"
  | .vdict fs => "\x7b" ++ pyReprFields fs ++ "\x7d"

def pyReprList : List Value → String
  | [] => ""
  | [x] => pyRepr x
  | x :: xs => pyRepr x ++ ", " ++ pyReprList xs

def pyReprFields : List (String × Value) → String
  | [] => ""
  | [(k, v)] => "\x27" ++ k ++ "\x27: " ++ pyRepr v
  | (k, v) :: fs => "\x27" ++ k ++ "\x27: " ++ pyRepr v ++ ", " ++ pyReprFields fs
end

/-- Python `str(v)`: the string itself for a str, `repr` rendering otherwise. -/
def pyStr : Value → String
  | .vstr s => s
  | v => pyRepr v

/-!
Event normalizer: `UIHooks.on_message_added` (src/backend/ui_hooks.py,
lines 98-164).  The per-block branch order of the source is:
`block_type == "text"`, then `"text" in block`, then `"content" in block`,
then `tool_use` / `tool_result` / unknown (all of which contribute
nothing).  A non-string value reaching the `content += text`
concatenation (or the `text[:50]` debug slice) raises a TypeError, which
the handler does not catch; that is the `.error ()` outcome.  A block
that is not a dict is skipped unless it is a ContentBlock object with a
`text` attribute; such framework objects are outside the JSON value
model, so for `Value` inputs a non-dict block contributes nothing.
-/

/-- Contribution of one content block in the backend hook. -/
def blockContribution (block : Value) : Except Unit String :=
  match block with
  | .vdict d =>
      if optEqStr (getKey d "type") "text" then
        match (getKey d "text").getD (.vstr "") with
        | .vstr t => .ok t
        | _ => .error ()
      else
        match getKey d "text" with
        | some (.vstr t) => .ok t
        | some _ => .error ()
        | none =>
          match getKey d "content" with
          | some (.vstr t) => .ok t
          | some _ => .error ()
          | none => .ok ""
  | _ => .ok ""

/-- The `content += ...` accumulation over a list of blocks, left to right,
stopping at the first block whose extraction raises. -/
def extractFromBlocks : List Value → Except Unit String
  | [] => .ok ""
  | b :: bs =>
      match blockContribution b with
      | .error e => .error e
      | .ok t =>
        match extractFromBlocks bs with
        | .error e => .error e
        | .ok rest => .ok (t ++ rest)

/-- Extraction over the whole `message.get("content")` value: a plain
string is taken whole, a list is accumulated block by block, anything
else leaves the content empty. -/
def extractContent : Value → Except Unit String
  | .vstr s => .ok s
  | .vlist bs => extractFromBlocks bs
  | _ => .ok ""

/-- Python whitespace as stripped by `str.strip()` (ASCII range; the rare
non-ASCII unicode space code points are not modelled). -/
def isPySpace (c : Char) : Bool :=
  c == ' ' || c == '\t' || c == '\n' || c == '\x0d' || c == '\x0b' || c == '\x0c'

/-- Python `not content.strip()`: the string is empty or whitespace-only. -/
def isBlank (s : String) : Bool :=
  s.toList.all isPySpace

/-- The normalized message event (timestamps and session id omitted). -/
structure MsgEvent where
  type : String
  role : Value
  content : String

/-- The role field `message.get("role", "unknown")`. -/
def msgRole (msg : List (String × Value)) : Value :=
  (getKey msg "role").getD (.vstr "unknown")

/-- The content field `message.get("content")` (`None` when absent). -/
def msgContent (msg : List (String × Value)) : Value :=
  (getKey msg "content").getD .vnull

/-- `UIHooks.on_message_added` of src/backend/ui_hooks.py: extract text,
and emit one `message` event unless the text is empty or whitespace-only.
String trimming approximates Python `str.strip()` on ASCII whitespace. -/
def on_message_added (msg : List (String × Value)) :
    Except Unit (Option MsgEvent) :=
  match extractContent (msgContent msg) with
  | .error e => .error e
  | .ok c =>
      if isBlank c then .ok none
      else .ok (some ⟨"message", msgRole msg, c⟩)

/-- Contribution of one content block in the standalone hook
(src/ui_hooks.py, lines 160-200): `type == "text"` first, then a bare
`"text"` key; a plain string block contributes itself; everything else
contributes nothing. -/
def blockContributionStandalone (block : Value) : Except Unit String :=
  match block with
  | .vdict d =>
      if optEqStr (getKey d "type") "text" then
        match (getKey d "text").getD (.vstr "") with
        | .vstr t => .ok t
        | _ => .error ()
      else
        match getKey d "text" with
        | some (.vstr t) => .ok t
        | some _ => .error ()
        | none => .ok ""
  | .vstr s => .ok s
  | _ => .ok ""

def extractFromBlocksStandalone : List Value → Except Unit String
  | [] => .ok ""
  | b :: bs =>
      match blockContributionStandalone b with
      | .error e => .error e
      | .ok t =>
        match extractFromBlocksStandalone bs with
        | .error e => .error e
        | .ok rest => .ok (t ++ rest)

def extractContentStandalone : Value → Except Unit String
  | .vstr s => .ok s
  | .vlist bs => extractFromBlocksStandalone bs
  | _ => .ok ""

/-- `UIHooks.on_message_added` of src/ui_hooks.py: same filter, but the
event type is `user_input` when the role is the string "user". -/
def on_message_added_standalone (msg : List (String × Value)) :
    Except Unit (Option MsgEvent) :=
  match extractContentStandalone (msgContent msg) with
  | .error e => .error e
  | .ok c =>
      if isBlank c then .ok none
      else
        .ok (some ⟨if optEqStr (some (msgRole msg)) "user" then "user_input"
                   else "message",
                   msgRole msg, c⟩)

/-- The extraction policy exactly as the specification words it, for
comparison with the source-derived extraction: concatenate every block
with a "text" field or a `type == text` tag, in sequence order; a block
tagged `tool_use` or `tool_result` contributes nothing; the whole content
when it is a single string. -/
def specBlockContribution (block : Value) : String :=
  match block with
  | .vdict d =>
      if optEqStr (getKey d "type") "tool_use"
          || optEqStr (getKey d "type") "tool_result" then ""
      else if (getKey d "text").isSome || optEqStr (getKey d "type") "text" then
        match getKey d "text" with
        | some (.vstr t) => t
        | _ => ""
      else ""
  | _ => ""

def specExtractText : Value → String
  | .vstr s => s
  | .vlist bs => String.join (bs.map specBlockContribution)
  | _ => ""

/-- Well-shapedness of one block: every value stored under a `text` or
`content` key is a string.  Sufficient for the extraction not to raise. -/
def blockWellShaped (block : Value) : Bool :=
  match block with
  | .vdict d =>
      (match getKey d "text" with
       | some (.vstr _) => true
       | some _ => false
       | none => true)
      && (match getKey d "content" with
          | some (.vstr _) => true
          | some _ => false
          | none => true)
  | _ => true

def contentWellShaped : Value → Bool
  | .vlist bs => bs.all blockWellShaped
  | _ => true

/-!
Tool call end: `UIHooks.on_after_tool_call` (src/backend/ui_hooks.py,
lines 184-211).  The framework event carries `tool_use`, `exception`
(an exception object or None — exception objects are always truthy, so it
is modelled as `Option String` holding `str(exception)`), the
`cancel_message` and the `result`.
-/

structure AfterToolCallEvent where
  tool_use : List (String × Value)
  exception : Option String
  cancel_message : Value
  result : Value

/-- The emitted `tool_call_end` record: `result` and `error` are `vnull`
(Python None) when not set. -/
structure ToolCallEndEvent where
  type : String
  tool_id : Value
  result : Value
  error : Value

/-- Helper for the `elif event.result:` branch: the extracted result when
the result is truthy (`content` value of a dict result, defaulting to the
stringified result; stringified result otherwise), `vnull` when falsy. -/
def extractToolResult (r : Value) : Value :=
  if truthy r then
    match r with
    | .vdict d => (getKey d "content").getD (.vstr (pyStr r))
    | _ => .vstr (pyStr r)
  else .vnull

/-- `UIHooks.on_after_tool_call`: priority order exception, then truthy
cancel message, then truthy result; the tool id falls back on the hook
state `current_tool_call_id` when the tool use carries no id. -/
def on_after_tool_call (current_tool_call_id : Value)
    (ev : AfterToolCallEvent) : ToolCallEndEvent :=
  let tool_id := (getKey ev.tool_use "id").getD current_tool_call_id
  match ev.exception with
  | some msg => ⟨"tool_call_end", tool_id, .vnull, .vstr msg⟩
  | none =>
      if truthy ev.cancel_message then
        ⟨"tool_call_end", tool_id, .vnull, ev.cancel_message⟩
      else
        ⟨"tool_call_end", tool_id, extractToolResult ev.result, .vnull⟩

/-- A field of the emitted event is populated when it is not Python None. -/
def populated : Value → Bool
  | .vnull => false
  | _ => true

/-!
Tool call end, standalone variant: `UIHooks.on_after_tool_call` of
src/ui_hooks.py (lines 217-252).  That handler probes the framework
event only through `hasattr(event, ...)` for a `result` and an `error`
attribute and computes the two output fields independently of each
other; attribute existence is modelled by presence flags.
-/

structure AfterToolCallEventStandalone where
  hasResult : Bool
  result : Value
  hasError : Bool
  error : Value

/-- The result extraction of the standalone handler, for a truthy result:
the first content block's `text` value (defaulting to the stringified
whole result) when the dict result's `content` is a non-empty list whose
head is a dict, the stringified head when it is not a dict, the content
itself when it is a string, and the stringified result otherwise. -/
def extractToolResultStandalone (r : Value) : Value :=
  match r with
  | .vdict d =>
      match getKey d "content" with
      | some (.vlist (c0 :: _)) =>
          match c0 with
          | .vdict d0 => (getKey d0 "text").getD (.vstr (pyStr r))
          | _ => .vstr (pyStr c0)
      | some (.vstr s) => .vstr s
      | _ => .vstr (pyStr r)
  | _ => .vstr (pyStr r)

/-- `UIHooks.on_after_tool_call` of src/ui_hooks.py: result is the
extracted text when the event carries a truthy result, error is the
stringified error when the event carries a truthy error; the two are set
independently, and the tool id is always the hook state. -/
def on_after_tool_call_standalone (current_tool_call_id : Value)
    (ev : AfterToolCallEventStandalone) : ToolCallEndEvent :=
  let result := if ev.hasResult && truthy ev.result
    then extractToolResultStandalone ev.result else Value.vnull
  let error := if ev.hasError && truthy ev.error
    then Value.vstr (pyStr ev.error) else Value.vnull
  ⟨"tool_call_end", current_tool_call_id, result, error⟩

/-!
WebSocket subscriber attachment: `websocket_endpoint` (src/backend/main.py,
lines 211-265) composed with `AgentSession._handle_hook_event`
(src/backend/agent_session.py).  The endpoint registers its callback
first and only then replays the existing transcript; the replay `for`
loop iterates the live transcript list by index, and every `await` inside
it is a point where the event loop may run `_handle_hook_event` for a new
framework event, which appends to the transcript and invokes the already
registered callback.  The interleaving is modelled by a schedule of
atomic steps acting on the state of one session and one observed
subscriber; events are identified by numbers.
-/

structure WsDispatchState where
  transcript : List Nat
  attached : Bool
  replayIdx : Nat
  replayDone : Bool
  received : List Nat
deriving DecidableEq, Repr

inductive WsStep where
  | register
  | replayStep
  | emit (e : Nat)
deriving DecidableEq, Repr

/-- One atomic step: `register` is `session.add_output_callback`;
`replayStep` is one iteration of the replay loop (or its termination test
once the index reaches the end of the live list); `emit e` is
`_handle_hook_event` for a new event, which appends to the transcript and
delivers to the subscriber exactly when its callback is registered. -/
def wsStepRun (s : WsDispatchState) : WsStep → WsDispatchState
  | .register => { s with attached := true }
  | .replayStep =>
      if s.replayDone then s
      else if h : s.replayIdx < s.transcript.length then
        { s with received := s.received ++ [s.transcript.get ⟨s.replayIdx, h⟩],
                 replayIdx := s.replayIdx + 1 }
      else { s with replayDone := true }
  | .emit e =>
      { s with transcript := s.transcript ++ [e],
               received := if s.attached then s.received ++ [e] else s.received }

def wsRun (init : WsDispatchState) (steps : List WsStep) : WsDispatchState :=
  steps.foldl wsStepRun init

/-- The state at the moment the endpoint is about to register, with `past`
events already in the transcript and the subscriber not yet attached. -/
def attachInit (past : List Nat) : WsDispatchState :=
  ⟨past, false, 0, false, []⟩

/-- The schedule in which the attach runs without interleaved events:
register, run the whole replay loop, then the later events arrive. -/
def attachSchedule (past later : List Nat) : List WsStep :=
  [.register] ++ List.replicate (past.length + 1) .replayStep
    ++ later.map .emit

/-!
Fan-out: `AgentSession._handle_hook_event` (src/backend/agent_session.py,
lines 109-122).  It appends the event to the transcript, saves the
transcript to disk, then invokes every output callback in order inside a
try/except that logs a failure and continues.  Callbacks are modelled as
(identifier, fails?) pairs; a successful delivery is recorded in
`delivered`, a failed one in `error_log`.
-/

structure FanoutState where
  transcript : List Nat
  disk : List Nat
  output_callbacks : List (Nat × Bool)
  delivered : List (Nat × Nat)
  error_log : List Nat
deriving DecidableEq, Repr

/-- One callback invocation: the try/except body of the delivery loop. -/
def deliverTo (e : Nat) (s : FanoutState) (cb : Nat × Bool) : FanoutState :=
  if cb.2 then { s with error_log := s.error_log ++ [cb.1] }
  else { s with delivered := s.delivered ++ [(cb.1, e)] }

/-- `_handle_hook_event`: append, save, then best-effort delivery. -/
def handle_hook_event (s : FanoutState) (e : Nat) : FanoutState :=
  let t := s.transcript ++ [e]
  let saved : FanoutState := { s with transcript := t, disk := t }
  saved.output_callbacks.foldl (deliverTo e) saved

/-!
Session lifecycle: `AgentSession` and `AgentSessionManager`
(src/backend/agent_session.py) and the HTTP endpoints (src/backend/main.py).
A transcript entry is the dict `_log_event` builds; its timestamp and
session-id stampings are ambient and omitted.  A disk write of the
transcript file is recorded as a `SavedTranscript` value; operations
return the list of writes they performed.  The agent object and the
hooks object are modelled by presence flags, output callbacks by their
identifiers.
-/

structure Event where
  type : String
  data : List (String × Value)

structure Session where
  session_id : String
  transcript : List Event
  created_at : String
  is_running : Bool
  agent : Bool
  ui_hooks : Bool
  output_callbacks : List Nat

/-- The JSON document `_save_transcript` writes for a session. -/
structure SavedTranscript where
  session_id : String
  created_at : String
  transcript : List Event

def save_transcript (s : Session) : SavedTranscript :=
  ⟨s.session_id, s.created_at, s.transcript⟩

/-- `AgentSession._log_event`: append one event and save the transcript. -/
def log_event (s : Session) (ty : String) (data : List (String × Value)) :
    Session × List SavedTranscript :=
  let s2 := { s with transcript := s.transcript ++ [⟨ty, data⟩] }
  (s2, [save_transcript s2])

/-- `AgentSession.stop` (lines 178-187): a no-op when not running;
otherwise clear the running flag and the agent, log `session_end`
(which saves), and save once more. -/
def stop (s : Session) : Session × List SavedTranscript :=
  if s.is_running = false then (s, [])
  else
    let s1 := { s with is_running := false, agent := false }
    let r2 := log_event s1 "session_end" []
    (r2.1, r2.2 ++ [save_transcript r2.1])

/-- `AgentSession.start` (lines 36-107): raises when already running;
otherwise builds the agent with fresh hooks, sets the running flag and
logs `session_resumed` or `session_start`. -/
def start (s : Session) (resume : Bool) :
    Except String (Session × List SavedTranscript) :=
  if s.is_running then .error "Session already running"
  else
    let s1 := { s with agent := true, ui_hooks := true, is_running := true }
    .ok (log_event s1 (if resume then "session_resumed" else "session_start") [])

/-- What `AgentResult.stop_reason` reported, when `invoke_async` returned. -/
inductive StopReason where
  | end_turn
  | interrupt (ints : List (String × String × String))
  | error_reason (msg : String)

/-- The behavior of the framework call `self.agent.invoke_async(text)`:
it either returns a result with a stop reason or raises. -/
inductive InvokeBehavior where
  | returns (r : StopReason)
  | raises (msg : String)

def interruptsVal (ints : List (String × String × String)) : Value :=
  .vlist (ints.map (fun i =>
    .vdict [("id", .vstr i.1), ("name", .vstr i.2.1), ("reason", .vstr i.2.2)]))

/-- Outcome of `AgentSession.send_input`: mutations performed so far are
kept even when the call re-raises, as in the source. -/
inductive SendInputResult where
  | ok (s : Session) (writes : List SavedTranscript)
  | raised (msg : String) (s : Session) (writes : List SavedTranscript)

/-- `AgentSession.send_input` (lines 142-176): RuntimeError when the agent
is absent or the session is not running; otherwise log `user_input`,
invoke the agent, and log an `interrupt` or `error` event depending on
the stop reason; an exception from the invocation logs an `error` event
and re-raises. -/
def send_input (s : Session) (text : String) (beh : InvokeBehavior) :
    SendInputResult :=
  if s.agent = false || s.is_running = false then
    .raised "Agent not running" s []
  else
    let r1 := log_event s "user_input" [("content", .vstr text)]
    match beh with
    | .returns .end_turn => .ok r1.1 r1.2
    | .returns (.interrupt ints) =>
        let r2 := log_event r1.1 "interrupt" [("interrupts", interruptsVal ints)]
        .ok r2.1 (r1.2 ++ r2.2)
    | .returns (.error_reason m) =>
        let r2 := log_event r1.1 "error" [("error", .vstr m)]
        .ok r2.1 (r1.2 ++ r2.2)
    | .raises m =>
        let r2 := log_event r1.1 "error" [("error", .vstr m)]
        .raised m r2.1 (r1.2 ++ r2.2)

inductive HttpResponse where
  | ok200 (body : String)
  | err400 (detail : String)
  | err404 (detail : String)
  | err500 (detail : String)
deriving DecidableEq, Repr

/-- `POST /api/sessions/(id)/input` (src/backend/main.py, lines 105-116):
404 when the id is not in the in-memory registry, 400 when the session is
not running, otherwise run `send_input`; an exception escaping it becomes
a 500 while the mutated session stays registered. -/
def send_input_endpoint (mem : Option Session) (content : String)
    (beh : InvokeBehavior) : HttpResponse × Option Session :=
  match mem with
  | none => (.err404 "Session not found", none)
  | some s =>
      if s.is_running = false then (.err400 "Session is not running", some s)
      else
        match send_input s content beh with
        | .ok s2 _ => (.ok200 "sent", some s2)
        | .raised m s2 _ => (.err500 m, some s2)

/-- A fresh `AgentSession.__init__` state (the creation timestamp is the
caller-supplied ambient `now`). -/
def newSession (sid now : String) : Session :=
  ⟨sid, [], now, false, false, false, []⟩

/-- `AgentSession.load_transcript` (lines 211-221): a missing file leaves
the state as initialized; otherwise the stored transcript and creation
time replace the fresh ones. -/
def load_transcript (s : Session) (file : Option SavedTranscript) : Session :=
  match file with
  | none => s
  | some f => { s with transcript := f.transcript, created_at := f.created_at }

/-- `AgentSessionManager.load_session` (lines 260-264): build a session,
load its transcript from disk and return it only when the loaded
transcript is non-empty (Python truthiness of the list). -/
def load_session (sid now : String) (file : Option SavedTranscript) :
    Option Session :=
  let s := load_transcript (newSession sid now) file
  if s.transcript.isEmpty then none else some s

/-- `GET /api/sessions/(id)` (src/backend/main.py, lines 54-73): serve the
in-memory session, else load from disk, else 404. -/
def get_session_endpoint (mem : Option Session) (file : Option SavedTranscript)
    (sid now : String) : HttpResponse × Option Session :=
  match mem with
  | some s => (.ok200 "session", some s)
  | none =>
      match load_session sid now file with
      | none => (.err404 "Session not found", none)
      | some s => (.ok200 "session", some s)

inductive ResumeStatus where
  | notFound
  | alreadyRunning
  | resumed
  | serverError
deriving DecidableEq, Repr

/-- `POST /api/sessions/(id)/resume` (src/backend/main.py, lines 76-102):
look up in memory, else load from disk; already-running sessions report
`already_running`; otherwise `start(resume=True)`.  The `serverError` arm
is the 500 an unexpected `start` exception would produce; it is
unreachable from the guarded states. -/
def resume_session (mem : Option Session) (file : Option SavedTranscript)
    (sid now : String) : ResumeStatus × Option Session :=
  match mem with
  | some s =>
      if s.is_running then (.alreadyRunning, some s)
      else
        match start s true with
        | .ok r => (.resumed, some r.1)
        | .error _ => (.serverError, some s)
  | none =>
      match load_session sid now file with
      | none => (.notFound, none)
      | some s =>
          if s.is_running then (.alreadyRunning, some s)
          else
            match start s true with
            | .ok r => (.resumed, some r.1)
            | .error _ => (.serverError, some s)

/-!
Session listings.  `AgentSessionManager.list_sessions`
(src/backend/agent_session.py, lines 243-258) walks the storage
directory, reads each transcript file, and produces for each one the
summary dict with keys session_id, created_at, message_count, sorted by
created_at descending.  `list_sessions` of src/agent_server.py
(lines 123-159) walks the Strands session storage and produces summaries
with keys session_id, created_at, updated_at, message_count, sorted by
updated_at descending.  A storage directory entry is `none` when it has
no readable metadata file.  Python `sorted(..., reverse=True)` is a
stable descending sort, matched by `mergeSort` with the reversed
comparison.
-/

def sessionSummary (f : SavedTranscript) : List (String × Value) :=
  [("session_id", .vstr f.session_id),
   ("created_at", .vstr f.created_at),
   ("message_count", .vint (f.transcript.length : Int))]

/-- The sort key `x["created_at"]`; summaries built above always store a
string there, so the default arm is never taken for them. -/
def summaryCreatedAt (summary : List (String × Value)) : String :=
  match getKey summary "created_at" with
  | some (.vstr s) => s
  | _ => ""

def list_sessions (dirs : List (Option SavedTranscript)) :
    List (List (String × Value)) :=
  let sessions := dirs.filterMap (fun f => f.map sessionSummary)
  sessions.mergeSort (fun a b => decide (summaryCreatedAt b ≤ summaryCreatedAt a))

/-- The metadata the standalone server reads for one Strands session
directory: the session.json fields plus the count of message files. -/
structure StrandsSessionData where
  session_id : String
  created_at : String
  updated_at : String
  message_count : Nat

def serverSessionSummary (d : StrandsSessionData) : List (String × Value) :=
  [("session_id", .vstr d.session_id),
   ("created_at", .vstr d.created_at),
   ("updated_at", .vstr d.updated_at),
   ("message_count", .vint (d.message_count : Int))]

def summaryUpdatedAt (summary : List (String × Value)) : String :=
  match getKey summary "updated_at" with
  | some (.vstr s) => s
  | _ => ""

def list_sessions_server (dirs : List (Option StrandsSessionData)) :
    List (List (String × Value)) :=
  let sessions := dirs.filterMap (fun d => d.map serverSessionSummary)
  sessions.mergeSort (fun a b => decide (summaryUpdatedAt b ≤ summaryUpdatedAt a))

/-- Concrete message whose single content block is tagged `tool_use` but
also carries a `text` key: the handler still extracts that text because
the bare-text-key branch runs before the `tool_use` branch. -/
def c1CounterMsg : List (String × Value) :=
  [("role", .vstr "assistant"),
   ("content", .vlist [.vdict [("type", .vstr "tool_use"), ("text", .vstr "hi")]])]

/-- Concrete message whose single content block is tagged `tool_result`
and carries a `content` key with a string value: the backend handler
extracts that string (its `content`-key branch runs before the
`tool_result` branch) while the standalone handler, which has no
`content`-key branch, extracts nothing. -/
def c1CounterMsg2 : List (String × Value) :=
  [("role", .vstr "assistant"),
   ("content", .vlist [.vdict [("type", .vstr "tool_result"), ("content", .vstr "x")]])]

/-- Concrete message with a standard-shape tool result block whose
`content` value is a list of blocks, not a string: the `content` key
branch then concatenates a list onto a string, a TypeError. -/
def c4CounterMsg : List (String × Value) :=
  [("role", .vstr "assistant"),
   ("content", .vlist [.vdict [("type", .vstr "tool_result"),
     ("content", .vlist [.vdict [("type", .vstr "text"), ("text", .vstr "4")]])]])]

/-- A running session with one recorded event, for the lifecycle claims. -/
def c6DemoSession : Session :=
  ⟨"s1", [⟨"session_start", []⟩], "t0", true, true, true, []⟩

/-!
Theorems.  Helper lemmas come first; the claim theorems follow, one per
claim, with their witnesses and counterexamples.
-/

theorem wsRun_append (s : WsDispatchState) (l1 l2 : List WsStep) :
    wsRun s (l1 ++ l2) = wsRun (wsRun s l1) l2 :=
  List.foldl_append wsStepRun s l1 l2

/-- Running the replay loop to completion with no interleaved emits
delivers exactly the not-yet-replayed part of the transcript. -/
theorem wsRun_replay :
    ∀ (n : Nat) (T R : List Nat) (att : Bool) (i : Nat),
      T.length - i = n → i ≤ T.length →
      wsRun ⟨T, att, i, false, R⟩ (List.replicate (n + 1) .replayStep)
        = ⟨T, att, T.length, true, R ++ T.drop i⟩ := by
  intro n
  induction n with
  | zero =>
      intro T R att i hn hi
      have hle : T.length ≤ i := Nat.le_of_sub_eq_zero hn
      have hii : i = T.length := Nat.le_antisymm hi hle
      subst hii
      simp [wsRun, wsStepRun]
  | succ n ih =>
      intro T R att i hn hi
      have hlt : i < T.length := by omega
      have h1 : wsRun ⟨T, att, i, false, R⟩ [.replayStep]
          = ⟨T, att, i + 1, false, R ++ [T.get ⟨i, hlt⟩]⟩ := by
        simp [wsRun, wsStepRun, hlt]
      have h2 := ih T (R ++ [T.get ⟨i, hlt⟩]) att (i + 1) (by omega) (by omega)
      have h3 : List.replicate (n + 1 + 1) WsStep.replayStep
          = [WsStep.replayStep] ++ List.replicate (n + 1) WsStep.replayStep := by
        simp [List.replicate_succ]
      rw [h3, wsRun_append, h1, h2]
      have h4 : T.drop i = T.get ⟨i, hlt⟩ :: T.drop (i + 1) := by
        rw [List.drop_eq_getElem_cons hlt]
        simp
      rw [h4]
      simp

/-- Events emitted after the replay has completed are appended to the
transcript and delivered live, in order. -/
theorem wsRun_emits :
    ∀ (E : List Nat) (T R : List Nat) (i : Nat),
      wsRun ⟨T, true, i, true, R⟩ (E.map .emit) = ⟨T ++ E, true, i, true, R ++ E⟩ := by
  intro E
  induction E with
  | nil => intro T R i; simp [wsRun]
  | cons e E ih =>
      intro T R i
      have h1 : wsRun ⟨T, true, i, true, R⟩ [.emit e]
          = ⟨T ++ [e], true, i, true, R ++ [e]⟩ := by
        simp [wsRun, wsStepRun]
      have h2 := ih (T ++ [e]) (R ++ [e]) i
      have h3 : (e :: E).map WsStep.emit = [WsStep.emit e] ++ E.map WsStep.emit := by
        simp
      rw [h3, wsRun_append, h1, h2]
      simp

/-- The delivery loop of `_handle_hook_event` leaves the transcript, disk
copy and callback list untouched and records one delivery or one logged
failure per callback, in order. -/
theorem fanout_foldl_spec (e : Nat) :
    ∀ (cbs : List (Nat × Bool)) (s : FanoutState),
      (cbs.foldl (deliverTo e) s).transcript = s.transcript
      ∧ (cbs.foldl (deliverTo e) s).disk = s.disk
      ∧ (cbs.foldl (deliverTo e) s).output_callbacks = s.output_callbacks
      ∧ (cbs.foldl (deliverTo e) s).delivered =
          s.delivered ++ (cbs.filter (fun cb => !cb.2)).map (fun cb => (cb.1, e))
      ∧ (cbs.foldl (deliverTo e) s).error_log =
          s.error_log ++ (cbs.filter (fun cb => cb.2)).map (fun cb => cb.1) := by
  intro cbs
  induction cbs with
  | nil => intro s; simp
  | cons cb rest ih =>
      intro s
      obtain ⟨h1, h2, h3, h4, h5⟩ := ih (deliverTo e s cb)
      cases hb : cb.2 <;>
        simp_all [deliverTo, hb]

/-- Blocks whose `text` and `content` values (when present) are strings
never make the extraction raise. -/
theorem blockContribution_ok_of_wellShaped :
    ∀ b, blockWellShaped b = true → ∃ t, blockContribution b = .ok t := by
  intro b hb
  cases b with
  | vdict d =>
      simp [blockWellShaped] at hb
      obtain ⟨ht, hc⟩ := hb
      cases hg : getKey d "text" with
      | some v =>
          cases v <;> rw [hg] at ht <;> simp at ht
          case vstr t =>
            cases hq : optEqStr (getKey d "type") "text" <;>
              simp [blockContribution, hq, hg]
      | none =>
          cases hg2 : getKey d "content" with
          | some v =>
              cases v <;> rw [hg2] at hc <;> simp at hc
              case vstr t =>
                cases hq : optEqStr (getKey d "type") "text" <;>
                  simp [blockContribution, hq, hg, hg2]
          | none =>
              cases hq : optEqStr (getKey d "type") "text" <;>
                simp [blockContribution, hq, hg, hg2]
  | vnull => exact ⟨"", rfl⟩
  | vbool b => exact ⟨"", rfl⟩
  | vint n => exact ⟨"", rfl⟩
  | vstr s => exact ⟨"", rfl⟩
  | vlist xs => exact ⟨"", rfl⟩

theorem extractFromBlocks_ok_of_wellShaped :
    ∀ bs : List Value, bs.all blockWellShaped = true →
      ∃ t, extractFromBlocks bs = .ok t := by
  intro bs
  induction bs with
  | nil => intro h; exact ⟨"", rfl⟩
  | cons b rest ih =>
      intro h
      simp [List.all_cons] at h
      obtain ⟨t1, h1⟩ := blockContribution_ok_of_wellShaped b h.1
      obtain ⟨t2, h2⟩ := ih (by simpa using h.2)
      exact ⟨t1 ++ t2, by simp [extractFromBlocks, h1, h2]⟩

theorem extractContent_ok_of_wellShaped :
    ∀ v, contentWellShaped v = true → ∃ t, extractContent v = .ok t := by
  intro v hv
  cases v with
  | vlist bs =>
      simp [contentWellShaped] at hv
      exact extractFromBlocks_ok_of_wellShaped bs (by simpa using hv)
  | vstr s => exact ⟨s, rfl⟩
  | vnull => exact ⟨"", rfl⟩
  | vbool b => exact ⟨"", rfl⟩
  | vint n => exact ⟨"", rfl⟩
  | vdict d => exact ⟨"", rfl⟩

/-- Well-shaped blocks never make the standalone extraction raise either
(it only reads the `text` key, which well-shapedness covers). -/
theorem blockContributionStandalone_ok_of_wellShaped :
    ∀ b, blockWellShaped b = true → ∃ t, blockContributionStandalone b = .ok t := by
  intro b hb
  cases b with
  | vdict d =>
      simp [blockWellShaped] at hb
      obtain ⟨ht, hc⟩ := hb
      cases hg : getKey d "text" with
      | some v =>
          cases v <;> rw [hg] at ht <;> simp at ht
          case vstr t =>
            cases hq : optEqStr (getKey d "type") "text" <;>
              simp [blockContributionStandalone, hq, hg]
      | none =>
          cases hq : optEqStr (getKey d "type") "text" <;>
            simp [blockContributionStandalone, hq, hg]
  | vnull => exact ⟨"", rfl⟩
  | vbool b => exact ⟨"", rfl⟩
  | vint n => exact ⟨"", rfl⟩
  | vstr s => exact ⟨s, rfl⟩
  | vlist xs => exact ⟨"", rfl⟩

theorem extractFromBlocksStandalone_ok_of_wellShaped :
    ∀ bs : List Value, bs.all blockWellShaped = true →
      ∃ t, extractFromBlocksStandalone bs = .ok t := by
  intro bs
  induction bs with
  | nil => intro h; exact ⟨"", rfl⟩
  | cons b rest ih =>
      intro h
      simp [List.all_cons] at h
      obtain ⟨t1, h1⟩ := blockContributionStandalone_ok_of_wellShaped b h.1
      obtain ⟨t2, h2⟩ := ih (by simpa using h.2)
      exact ⟨t1 ++ t2, by simp [extractFromBlocksStandalone, h1, h2]⟩

theorem extractContentStandalone_ok_of_wellShaped :
    ∀ v, contentWellShaped v = true → ∃ t, extractContentStandalone v = .ok t := by
  intro v hv
  cases v with
  | vlist bs =>
      simp [contentWellShaped] at hv
      exact extractFromBlocksStandalone_ok_of_wellShaped bs (by simpa using hv)
  | vstr s => exact ⟨s, rfl⟩
  | vnull => exact ⟨"", rfl⟩
  | vbool b => exact ⟨"", rfl⟩
  | vint n => exact ⟨"", rfl⟩
  | vdict d => exact ⟨"", rfl⟩

/-- A block tagged `tool_use` or `tool_result` is not tagged `text`. -/
theorem optEqStr_text_false_of_tool (d : List (String × Value))
    (htag : optEqStr (getKey d "type") "tool_use" = true
      ∨ optEqStr (getKey d "type") "tool_result" = true) :
    optEqStr (getKey d "type") "text" = false := by
  cases hg : getKey d "type" with
  | none => rcases htag with h | h <;> simp [optEqStr, hg] at h
  | some v =>
      cases v <;> rcases htag with h | h <;>
        simp_all [optEqStr, hg]

/-- Claim C1 (counterexample): on a message whose single content block is
tagged `tool_use` while also carrying a "text" key, both message-added
handlers emit a message event with content "hi", although the
spec-worded extraction gives the empty string for that content, under
which the claim would require no event at all; and on a message whose
single block is tagged `tool_result` and carries a "content" key with a
string, the backend handler emits an event with that string (the
standalone handler emits none), although the claim says `tool_result`
blocks contribute nothing and only "text" fields or `type == text` tags
contribute. -/
theorem c1_counterexample :
    on_message_added c1CounterMsg =
      .ok (some ⟨"message", .vstr "assistant", "hi"⟩)
    ∧ on_message_added_standalone c1CounterMsg =
        .ok (some ⟨"message", .vstr "assistant", "hi"⟩)
    ∧ specExtractText (msgContent c1CounterMsg) = ""
    ∧ on_message_added c1CounterMsg ≠ .ok none
    ∧ on_message_added c1CounterMsg2 =
        .ok (some ⟨"message", .vstr "assistant", "x"⟩)
    ∧ on_message_added_standalone c1CounterMsg2 = .ok none
    ∧ specExtractText (msgContent c1CounterMsg2) = "" := by
  refine ⟨rfl, rfl, rfl, ?_, rfl, rfl, rfl⟩
  intro h
  have h1 : on_message_added c1CounterMsg =
      .ok (some ⟨"message", .vstr "assistant", "hi"⟩) := rfl
  rw [h1] at h
  exact Option.noConfusion (Except.ok.inj h)

/-- Claim C1 (amended): for both message-added handlers, when extraction
succeeds with text t, no event is emitted when t is empty or
whitespace-only; otherwise the backend handler emits exactly one
`message` event and the standalone handler exactly one `user_input`
event when the role is "user" (`message` otherwise), carrying the role
and t; in both handlers the extracted text is the whole content when it
is a single string and the in-order concatenation of the per-block
contributions when it is a list; a block tagged `tool_use` or
`tool_result` contributes nothing only when it carries no "text" key
(and, in the backend handler, no "content" key). -/
theorem c1_amended :
    (∀ (msg : List (String × Value)) (t : String),
        extractContent (msgContent msg) = .ok t →
        on_message_added msg =
          .ok (if isBlank t then none else some ⟨"message", msgRole msg, t⟩))
    ∧ (∀ (msg : List (String × Value)) (t : String),
        extractContentStandalone (msgContent msg) = .ok t →
        on_message_added_standalone msg =
          .ok (if isBlank t then none
               else some ⟨if optEqStr (some (msgRole msg)) "user" then "user_input"
                          else "message", msgRole msg, t⟩))
    ∧ (∀ (bs1 bs2 : List Value) (t1 t2 : String),
        extractFromBlocks bs1 = .ok t1 → extractFromBlocks bs2 = .ok t2 →
        extractFromBlocks (bs1 ++ bs2) = .ok (t1 ++ t2))
    ∧ (∀ (bs1 bs2 : List Value) (t1 t2 : String),
        extractFromBlocksStandalone bs1 = .ok t1 →
        extractFromBlocksStandalone bs2 = .ok t2 →
        extractFromBlocksStandalone (bs1 ++ bs2) = .ok (t1 ++ t2))
    ∧ (∀ d : List (String × Value),
        (optEqStr (getKey d "type") "tool_use" = true
          ∨ optEqStr (getKey d "type") "tool_result" = true) →
        getKey d "text" = none → getKey d "content" = none →
        blockContribution (.vdict d) = .ok "")
    ∧ (∀ d : List (String × Value),
        (optEqStr (getKey d "type") "tool_use" = true
          ∨ optEqStr (getKey d "type") "tool_result" = true) →
        getKey d "text" = none →
        blockContributionStandalone (.vdict d) = .ok "")
    ∧ (∀ s : String, extractContent (.vstr s) = .ok s
        ∧ extractContentStandalone (.vstr s) = .ok s) := by
  refine ⟨?_, ?_, ?_, ?_, ?_, ?_, ?_⟩
  · intro msg t h
    simp [on_message_added, h, apply_ite]
  · intro msg t h
    simp [on_message_added_standalone, h, apply_ite]
  · intro bs1
    induction bs1 with
    | nil =>
        intro bs2 t1 t2 h1 h2
        simp [extractFromBlocks] at h1
        subst h1
        simpa using h2
    | cons b bs ih =>
        intro bs2 t1 t2 h1 h2
        cases hb : blockContribution b with
        | error e => simp [extractFromBlocks, hb] at h1
        | ok tb =>
            cases hr : extractFromBlocks bs with
            | error e => simp [extractFromBlocks, hb, hr] at h1
            | ok rest =>
                simp [extractFromBlocks, hb, hr] at h1
                have h3 := ih bs2 rest t2 hr h2
                simp [extractFromBlocks, hb, h3, ← h1, String.append_assoc]
  · intro bs1
    induction bs1 with
    | nil =>
        intro bs2 t1 t2 h1 h2
        simp [extractFromBlocksStandalone] at h1
        subst h1
        simpa using h2
    | cons b bs ih =>
        intro bs2 t1 t2 h1 h2
        cases hb : blockContributionStandalone b with
        | error e => simp [extractFromBlocksStandalone, hb] at h1
        | ok tb =>
            cases hr : extractFromBlocksStandalone bs with
            | error e => simp [extractFromBlocksStandalone, hb, hr] at h1
            | ok rest =>
                simp [extractFromBlocksStandalone, hb, hr] at h1
                have h3 := ih bs2 rest t2 hr h2
                simp [extractFromBlocksStandalone, hb, h3, ← h1, String.append_assoc]
  · intro d htag htext hcontent
    simp [blockContribution, optEqStr_text_false_of_tool d htag, htext, hcontent]
  · intro d htag htext
    simp [blockContributionStandalone, optEqStr_text_false_of_tool d htag, htext]
  · intro s
    exact ⟨rfl, rfl⟩

/-- Claim C1 (witness): the amended theorem applied to a plain string
message through both handlers (the standalone one emitting `user_input`
for the user role) and to bare `tool_result` blocks. -/
theorem c1_witness :
    on_message_added [("role", .vstr "user"), ("content", .vstr "hello")] =
      .ok (some ⟨"message", .vstr "user", "hello"⟩)
    ∧ on_message_added_standalone [("role", .vstr "user"), ("content", .vstr "hello")] =
        .ok (some ⟨"user_input", .vstr "user", "hello"⟩)
    ∧ blockContribution (.vdict [("type", .vstr "tool_result")]) = .ok ""
    ∧ blockContributionStandalone (.vdict [("type", .vstr "tool_use")]) = .ok "" := by
  refine ⟨?_, ?_, ?_, ?_⟩
  · have h := c1_amended.1 [("role", .vstr "user"), ("content", .vstr "hello")]
      "hello" rfl
    rw [show isBlank "hello" = false from rfl] at h
    simpa using h
  · have h := c1_amended.2.1 [("role", .vstr "user"), ("content", .vstr "hello")]
      "hello" rfl
    rw [show isBlank "hello" = false from rfl,
        show (if optEqStr (some (msgRole [("role", Value.vstr "user"), ("content", Value.vstr "hello")])) "user" then "user_input" else "message") = "user_input" from rfl] at h
    simpa using h
  · exact c1_amended.2.2.2.2.1 [("type", .vstr "tool_result")] (Or.inr rfl) rfl rfl
  · exact c1_amended.2.2.2.2.2.1 [("type", .vstr "tool_use")] (Or.inl rfl) rfl

/-- Claim C2 (counterexample): in the backend handler, a tool-call end
with no exception, no cancellation message and a falsy (None) result
populates neither of the result and error fields; in the standalone
handler, an event carrying both a truthy result and a truthy error
populates both fields at once.  So it is not the case that exactly one
of result and error is populated in every `tool_call_end` event.
Moreover, on a structured result whose `content` is a list of blocks,
the backend handler emits the whole content value, not the first text
block ("4") the claim describes, while the standalone handler does emit
that first text block. -/
theorem c2_counterexample :
    populated (on_after_tool_call .vnull ⟨[], none, .vnull, .vnull⟩).result = false
    ∧ populated (on_after_tool_call .vnull ⟨[], none, .vnull, .vnull⟩).error = false
    ∧ populated (on_after_tool_call_standalone .vnull
        ⟨true, .vstr "out", true, .vstr "oops"⟩).result = true
    ∧ populated (on_after_tool_call_standalone .vnull
        ⟨true, .vstr "out", true, .vstr "oops"⟩).error = true
    ∧ (on_after_tool_call .vnull ⟨[], none, .vnull,
        .vdict [("content", .vlist [.vdict [("type", .vstr "text"), ("text", .vstr "4")]])]⟩).result
      = .vlist [.vdict [("type", .vstr "text"), ("text", .vstr "4")]]
    ∧ Value.vlist [.vdict [("type", .vstr "text"), ("text", .vstr "4")]] ≠ .vstr "4"
    ∧ (on_after_tool_call_standalone .vnull ⟨true,
        .vdict [("content", .vlist [.vdict [("type", .vstr "text"), ("text", .vstr "4")]])],
        false, .vnull⟩).result = .vstr "4" :=
  ⟨rfl, rfl, rfl, rfl, rfl, fun h => Value.noConfusion h, rfl⟩

/-- Claim C2 (amended): the backend handler populates at most one of the
result and error fields of a `tool_call_end` event, chosen in priority
order: the exception message if the tool call raised, else the
cancellation message if it is truthy, else the extracted result (the
content value of a dict result, defaulting to the stringified result)
when the result is truthy; when none of the three applies, neither field
is populated.  The standalone handler sets the two fields independently:
result is the extracted result text (the first text block of a
structured result, or the stringified result) exactly when the event
carries a truthy result, error is the stringified error exactly when the
event carries a truthy error, and both can be populated in one event. -/
theorem c2_amended :
    (∀ (cur : Value) (ev : AfterToolCallEvent),
      (¬(populated (on_after_tool_call cur ev).result = true
          ∧ populated (on_after_tool_call cur ev).error = true))
      ∧ (∀ m, ev.exception = some m →
          (on_after_tool_call cur ev).error = .vstr m
          ∧ (on_after_tool_call cur ev).result = .vnull)
      ∧ (ev.exception = none → truthy ev.cancel_message = true →
          (on_after_tool_call cur ev).error = ev.cancel_message
          ∧ (on_after_tool_call cur ev).result = .vnull)
      ∧ (ev.exception = none → truthy ev.cancel_message = false →
          (on_after_tool_call cur ev).error = .vnull
          ∧ (on_after_tool_call cur ev).result = extractToolResult ev.result))
    ∧ (∀ (cur : Value) (ev : AfterToolCallEventStandalone),
      (ev.hasResult = true → truthy ev.result = true →
        (on_after_tool_call_standalone cur ev).result =
          extractToolResultStandalone ev.result)
      ∧ (ev.hasResult = false ∨ truthy ev.result = false →
        (on_after_tool_call_standalone cur ev).result = .vnull)
      ∧ (ev.hasError = true → truthy ev.error = true →
        (on_after_tool_call_standalone cur ev).error = .vstr (pyStr ev.error))
      ∧ (ev.hasError = false ∨ truthy ev.error = false →
        (on_after_tool_call_standalone cur ev).error = .vnull))
    ∧ (∀ (d d0 : List (String × Value)) (rest : List Value) (t : String),
        getKey d "content" = some (.vlist (.vdict d0 :: rest)) →
        getKey d0 "text" = some (.vstr t) →
        extractToolResultStandalone (.vdict d) = .vstr t) := by
  refine ⟨?_, ?_, ?_⟩
  · intro cur ev
    refine ⟨?_, ?_, ?_, ?_⟩
    · rintro ⟨hr, he⟩
      cases hx : ev.exception with
      | some m => simp [on_after_tool_call, hx, populated] at hr
      | none =>
          cases hc : truthy ev.cancel_message with
          | true => simp [on_after_tool_call, hx, hc, populated] at hr
          | false => simp [on_after_tool_call, hx, hc, populated] at he
    · intro m hm
      simp [on_after_tool_call, hm]
    · intro hx hc
      simp [on_after_tool_call, hx, hc]
    · intro hx hc
      simp [on_after_tool_call, hx, hc]
  · intro cur ev
    refine ⟨?_, ?_, ?_, ?_⟩
    · intro h1 h2
      simp [on_after_tool_call_standalone, h1, h2]
    · intro h
      rcases h with h | h <;> simp [on_after_tool_call_standalone, h]
    · intro h1 h2
      simp [on_after_tool_call_standalone, h1, h2]
    · intro h
      rcases h with h | h <;> simp [on_after_tool_call_standalone, h]
  · intro d d0 rest t h1 h2
    simp [extractToolResultStandalone, h1, h2]

/-- Claim C2 (witness): the amended theorem applied to a raised call and
to a plain successful string result in the backend handler, and to a
structured result and an absent error attribute in the standalone
handler. -/
theorem c2_witness :
    ((on_after_tool_call .vnull ⟨[], some "boom", .vnull, .vnull⟩).error = .vstr "boom"
      ∧ (on_after_tool_call .vnull ⟨[], some "boom", .vnull, .vnull⟩).result = .vnull)
    ∧ (on_after_tool_call .vnull ⟨[], none, .vnull, .vstr "out"⟩).result = .vstr "out"
    ∧ (on_after_tool_call_standalone .vnull ⟨true, .vstr "r", false, .vnull⟩).error = .vnull
    ∧ extractToolResultStandalone
        (.vdict [("content", .vlist [.vdict [("text", .vstr "tt")]])]) = .vstr "tt" := by
  refine ⟨?_, ?_, ?_, ?_⟩
  · exact (c2_amended.1 .vnull ⟨[], some "boom", .vnull, .vnull⟩).2.1 "boom" rfl
  · exact ((c2_amended.1 .vnull ⟨[], none, .vnull, .vstr "out"⟩).2.2.2 rfl rfl).2.trans rfl
  · exact (c2_amended.2.1 .vnull ⟨true, .vstr "r", false, .vnull⟩).2.2.2 (Or.inl rfl)
  · exact c2_amended.2.2 [("content", .vlist [.vdict [("text", .vstr "tt")]])]
      [("text", .vstr "tt")] [] "tt" rfl rfl

/-- Claim C3 (counterexample): the endpoint registers the subscriber
callback before replaying.  With one stored event, an event emitted
between registration and the replay loop is delivered live first and
then again by the replay, so the subscriber receives the stream 2, 1, 2:
a live event arrives before the replay completes, the replayed history is
not first, and an event is duplicated. -/
theorem c3_counterexample :
    (wsRun (attachInit [1])
        [.register, .emit 2, .replayStep, .replayStep, .replayStep]).received
      = [2, 1, 2]
    ∧ [2, 1, 2] ≠ [1, 2]
    ∧ List.count 2 [2, 1, 2] = 2 :=
  ⟨by decide, by decide, by decide⟩

/-- Claim C3 (amended): for a subscriber that attaches after K events,
provided no event is emitted between its registration and the completion
of its replay, it receives events 1..K by replay in stored order and then
every later event live, with no event duplicated and none missing. -/
theorem c3_amended :
    ∀ (past later : List Nat),
      wsRun (attachInit past) (attachSchedule past later)
        = ⟨past ++ later, true, past.length, true, past ++ later⟩ := by
  intro past later
  have h0 : wsRun (attachInit past) [.register] = ⟨past, true, 0, false, []⟩ := rfl
  have h1 := wsRun_replay past.length past [] true 0 (by simp) (by simp)
  have h2 := wsRun_emits later past (past.drop 0) past.length
  calc wsRun (attachInit past) (attachSchedule past later)
      = wsRun (wsRun (wsRun (attachInit past) [.register])
          (List.replicate (past.length + 1) .replayStep)) (later.map .emit) := by
        rw [attachSchedule, ← wsRun_append, ← wsRun_append, List.append_assoc]
    _ = ⟨past ++ later, true, past.length, true, past ++ later⟩ := by
        rw [h0, h1]
        simpa using h2

/-- Claim C4 (counterexample): a message holding a standard-shape
`tool_result` block whose content value is a list of blocks makes the
backend handler raise a TypeError that propagates past its boundary, and
a block storing an integer under its "text" key does the same in the
standalone handler, so neither normalizer degrades every unexpected
shape to no text. -/
theorem c4_counterexample :
    on_message_added c4CounterMsg = .error ()
    ∧ on_message_added_standalone
        [("role", .vstr "user"), ("content", .vlist [.vdict [("text", .vint 5)]])]
      = .error () :=
  ⟨rfl, rfl⟩

/-- Claim C4 (amended): both message-added handlers can raise past their
boundary on unexpected shapes — any selected non-string text value makes
the concatenation raise a TypeError — but both return without raising on
every message whose blocks store only strings (or nothing) under their
"text" and "content" keys. -/
theorem c4_amended :
    ∀ msg : List (String × Value),
      contentWellShaped (msgContent msg) = true →
      (∃ r, on_message_added msg = .ok r)
      ∧ (∃ r, on_message_added_standalone msg = .ok r) := by
  intro msg h
  constructor
  · obtain ⟨t, ht⟩ := extractContent_ok_of_wellShaped _ h
    exact ⟨if isBlank t then none else some ⟨"message", msgRole msg, t⟩,
      by simp [on_message_added, ht, apply_ite]⟩
  · obtain ⟨t, ht⟩ := extractContentStandalone_ok_of_wellShaped _ h
    exact ⟨if isBlank t then none
           else some ⟨if optEqStr (some (msgRole msg)) "user" then "user_input"
                      else "message", msgRole msg, t⟩,
      by simp [on_message_added_standalone, ht, apply_ite]⟩

/-- Claim C4 (witness): the amended theorem applied to a well-shaped
single-block message, for both handlers. -/
theorem c4_witness :
    (∃ r, on_message_added
        [("role", .vstr "user"), ("content", .vlist [.vdict [("text", .vstr "ok")]])]
      = .ok r)
    ∧ (∃ r, on_message_added_standalone
        [("role", .vstr "user"), ("content", .vlist [.vdict [("text", .vstr "ok")]])]
      = .ok r) :=
  c4_amended
    [("role", .vstr "user"), ("content", .vlist [.vdict [("text", .vstr "ok")]])] rfl

/-- Claim C5 (counterexample): with two registered subscribers of which
the first fails, `_handle_hook_event` logs the failure, delivers to the
other subscriber and appends durably — but the failing subscriber is
still registered afterwards, so a delivery failure does not cause the
subscriber to be dropped. -/
theorem c5_counterexample :
    handle_hook_event ⟨[], [], [(0, true), (1, false)], [], []⟩ 7 =
      ⟨[7], [7], [(0, true), (1, false)], [(1, 7)], [0]⟩
    ∧ (0, true) ∈
        (handle_hook_event ⟨[], [], [(0, true), (1, false)], [], []⟩ 7).output_callbacks :=
  ⟨by decide, by decide⟩

/-- Claim C5 (amended): for every normalized event the durable transcript
append happens unconditionally before subscriber delivery; a delivery
failure to one subscriber is logged and affects neither the delivery to
the other subscribers nor the durable append nor the session state, and
the failing subscriber remains registered (it is removed only when its
own connection handler exits). -/
theorem c5_amended :
    ∀ (s : FanoutState) (e : Nat),
      (handle_hook_event s e).transcript = s.transcript ++ [e]
      ∧ (handle_hook_event s e).disk = s.transcript ++ [e]
      ∧ (handle_hook_event s e).output_callbacks = s.output_callbacks
      ∧ (handle_hook_event s e).delivered =
          s.delivered ++
            (s.output_callbacks.filter (fun cb => !cb.2)).map (fun cb => (cb.1, e))
      ∧ (handle_hook_event s e).error_log =
          s.error_log ++
            (s.output_callbacks.filter (fun cb => cb.2)).map (fun cb => cb.1) := by
  intro s e
  obtain ⟨h1, h2, h3, h4, h5⟩ := fanout_foldl_spec e s.output_callbacks
    { s with transcript := s.transcript ++ [e], disk := s.transcript ++ [e] }
  exact ⟨h1, h2, h3, h4, h5⟩

/-- Claim C6 (counterexample): stopping the demo session appends
`session_end`, so resuming restores the pre-stop transcript with a
`session_end` in between, not the pre-stop transcript directly followed
by `session_resumed`. -/
theorem c6_counterexample :
    ((resume_session (some (stop c6DemoSession).1) none "s1" "t0").2.map
        (fun s => s.transcript.map Event.type))
      = some ["session_start", "session_end", "session_resumed"]
    ∧ ["session_start", "session_end", "session_resumed"]
        ≠ ["session_start", "session_resumed"] :=
  ⟨rfl, by decide⟩

/-- Claim C6 (amended): resuming a stopped session restores the transcript
persisted at stop — the pre-stop transcript followed by the
`session_end` event that stop appended — and then appends a
`session_resumed` event as the next entry, leaving the session running. -/
theorem c6_amended :
    ∀ (s : Session) (sid now : String) (file : Option SavedTranscript),
      s.is_running = true →
      ∃ s2, resume_session (some (stop s).1) file sid now = (.resumed, some s2)
        ∧ s2.transcript =
            s.transcript ++ [⟨"session_end", []⟩, ⟨"session_resumed", []⟩]
        ∧ s2.is_running = true := by
  intro s sid now file h
  refine ⟨{ s with is_running := true, agent := true, ui_hooks := true, transcript := s.transcript ++ [⟨"session_end", []⟩, ⟨"session_resumed", []⟩] }, ?_, ?_, ?_⟩ <;>
    simp [resume_session, stop, start, log_event, h]

/-- Claim C6 (witness): the amended theorem applied to the demo session. -/
theorem c6_witness :
    ∃ s2, resume_session (some (stop c6DemoSession).1) none "s1" "t0"
        = (.resumed, some s2)
      ∧ s2.transcript =
          [⟨"session_start", []⟩] ++ [⟨"session_end", []⟩, ⟨"session_resumed", []⟩]
      ∧ s2.is_running = true :=
  c6_amended c6DemoSession "s1" "t0" none rfl

/-- Claim C7: sending input to a session that is not running is rejected
with HTTP 400; and when the agent invocation raises, an error event
carrying the exception text is appended to the transcript right after the
user input event, the running flag stays true, and a subsequent input on
the resulting session is accepted. -/
theorem c7_error_keeps_running :
    ∀ (s : Session) (content m : String) (beh : InvokeBehavior),
      (s.is_running = false →
        send_input_endpoint (some s) content beh =
          (.err400 "Session is not running", some s))
      ∧ (s.is_running = true → s.agent = true →
          ∃ s2, send_input_endpoint (some s) content (.raises m) = (.err500 m, some s2)
            ∧ s2.transcript = s.transcript ++
                [⟨"user_input", [("content", .vstr content)]⟩,
                 ⟨"error", [("error", .vstr m)]⟩]
            ∧ s2.is_running = true ∧ s2.agent = true
            ∧ (∀ c2, (send_input_endpoint (some s2) c2 (.returns .end_turn)).1
                 = .ok200 "sent")) := by
  intro s content m beh
  constructor
  · intro h
    simp [send_input_endpoint, h]
  · intro h1 h2
    refine ⟨{ s with transcript := s.transcript ++ [⟨"user_input", [("content", .vstr content)]⟩, ⟨"error", [("error", .vstr m)]⟩] }, ?_, ?_, ?_, ?_, ?_⟩ <;>
      simp [send_input_endpoint, send_input, log_event, h1, h2]

/-- Claim C7 (witness): the theorem applied to a stopped session and to a
running session whose invocation raises "boom". -/
theorem c7_witness :
    send_input_endpoint (some ⟨"s", [], "t", false, false, false, []⟩) "x"
        (.returns .end_turn) =
      (.err400 "Session is not running", some ⟨"s", [], "t", false, false, false, []⟩)
    ∧ ∃ s2, send_input_endpoint (some ⟨"s", [], "t", true, true, true, []⟩) "hi"
          (.raises "boom") = (.err500 "boom", some s2)
        ∧ s2.transcript = [] ++
            [⟨"user_input", [("content", .vstr "hi")]⟩,
             ⟨"error", [("error", .vstr "boom")]⟩]
        ∧ s2.is_running = true ∧ s2.agent = true
        ∧ (∀ c2, (send_input_endpoint (some s2) c2 (.returns .end_turn)).1
             = .ok200 "sent") := by
  constructor
  · exact (c7_error_keeps_running ⟨"s", [], "t", false, false, false, []⟩ "x" "m"
      (.returns .end_turn)).1 rfl
  · exact (c7_error_keeps_running ⟨"s", [], "t", true, true, true, []⟩ "hi" "boom"
      (.returns .end_turn)).2 rfl rfl

/-- Claim C8 (counterexample): the backend list-sessions endpoint produces,
for a persisted session, a summary whose keys are session_id, created_at
and message_count only — it contains no updated_at field, contrary to the
claimed summary shape. -/
theorem c8_counterexample :
    list_sessions [some ⟨"s1", "2024-01-01", []⟩]
      = [sessionSummary ⟨"s1", "2024-01-01", []⟩]
    ∧ getKey (sessionSummary ⟨"s1", "2024-01-01", []⟩) "updated_at" = none :=
  ⟨List.perm_singleton.mp (List.mergeSort_perm _ _), rfl⟩

/-- Claim C8 (amended): the backend endpoint returns one summary per
persisted session with exactly the keys session_id, created_at and
message_count, sorted by created_at descending; the standalone server
endpoint returns one summary per persisted Strands session with exactly
the keys session_id, created_at, updated_at and message_count, sorted by
updated_at descending. -/
theorem c8_amended :
    (∀ dirs : List (Option SavedTranscript),
      (list_sessions dirs).Perm (dirs.filterMap (fun f => f.map sessionSummary))
      ∧ (∀ x, x ∈ list_sessions dirs →
          x.map Prod.fst = ["session_id", "created_at", "message_count"])
      ∧ (list_sessions dirs).Pairwise
          (fun a b => summaryCreatedAt b ≤ summaryCreatedAt a))
    ∧ (∀ dirs : List (Option StrandsSessionData),
      (list_sessions_server dirs).Perm
        (dirs.filterMap (fun d => d.map serverSessionSummary))
      ∧ (∀ x, x ∈ list_sessions_server dirs →
          x.map Prod.fst = ["session_id", "created_at", "updated_at", "message_count"])
      ∧ (list_sessions_server dirs).Pairwise
          (fun a b => summaryUpdatedAt b ≤ summaryUpdatedAt a)) := by
  constructor
  · intro dirs
    refine ⟨List.mergeSort_perm _ _, ?_, ?_⟩
    · intro x hx
      have hx2 : x ∈ dirs.filterMap (fun f => f.map sessionSummary) :=
        (List.mergeSort_perm _ _).mem_iff.mp hx
      simp [List.mem_filterMap] at hx2
      obtain ⟨f, hf, hfx⟩ := hx2
      obtain ⟨g, hg, hgx⟩ := hfx
      subst hgx
      rfl
    · have hp := @List.sorted_mergeSort _
        (fun a b => decide (summaryCreatedAt b ≤ summaryCreatedAt a))
        (fun a b c h1 h2 => by
          simp at h1 h2 ⊢
          exact le_trans h2 h1)
        (fun a b => by
          rcases le_total (summaryCreatedAt b) (summaryCreatedAt a) with h | h <;>
            simp [h])
        (dirs.filterMap (fun f => f.map sessionSummary))
      exact hp.imp (fun h => of_decide_eq_true h)
  · intro dirs
    refine ⟨List.mergeSort_perm _ _, ?_, ?_⟩
    · intro x hx
      have hx2 : x ∈ dirs.filterMap (fun d => d.map serverSessionSummary) :=
        (List.mergeSort_perm _ _).mem_iff.mp hx
      simp [List.mem_filterMap] at hx2
      obtain ⟨f, hf, hfx⟩ := hx2
      obtain ⟨g, hg, hgx⟩ := hfx
      subst hgx
      rfl
    · have hp := @List.sorted_mergeSort _
        (fun a b => decide (summaryUpdatedAt b ≤ summaryUpdatedAt a))
        (fun a b c h1 h2 => by
          simp at h1 h2 ⊢
          exact le_trans h2 h1)
        (fun a b => by
          rcases le_total (summaryUpdatedAt b) (summaryUpdatedAt a) with h | h <;>
            simp [h])
        (dirs.filterMap (fun d => d.map serverSessionSummary))
      exact hp.imp (fun h => of_decide_eq_true h)

/-- Claim C8 (witness): the amended theorem applied to a one-session
store, discharging the membership hypothesis via the permutation. -/
theorem c8_witness :
    (list_sessions [some ⟨"a", "1", []⟩]).Pairwise
      (fun a b => summaryCreatedAt b ≤ summaryCreatedAt a)
    ∧ (sessionSummary ⟨"a", "1", []⟩).map Prod.fst
        = ["session_id", "created_at", "message_count"] := by
  constructor
  · exact (c8_amended.1 [some ⟨"a", "1", []⟩]).2.2
  · exact (c8_amended.1 [some ⟨"a", "1", []⟩]).2.1 _
      (((c8_amended.1 [some ⟨"a", "1", []⟩]).1).mem_iff.mpr (by simp))

/-- Claim C9: calling stop on a session whose running flag is false is a
silent no-op: it returns without error, appends no event, performs no
disk write, and leaves every field of the session unchanged. -/
theorem c9_stop_not_running_noop :
    ∀ s : Session, s.is_running = false → stop s = (s, []) := by
  intro s h
  simp [stop, h]

/-- Claim C9 (witness): the theorem applied to a freshly initialized
session, which is not running. -/
theorem c9_witness : stop (newSession "a" "t0") = (newSession "a" "t0", []) :=
  c9_stop_not_running_noop (newSession "a" "t0") rfl

/-- Claim C10: loading a session from disk yields a session exactly when a
transcript file exists with a non-empty transcript list; a session whose
file stores an empty transcript is treated as nonexistent, so the
get-session endpoint returns 404 for it when it is not in memory. -/
theorem c10_load :
    ∀ (sid now : String) (file : Option SavedTranscript),
      ((load_session sid now file).isSome ↔
        ∃ f, file = some f ∧ f.transcript ≠ [])
      ∧ (∀ f, file = some f → f.transcript = [] →
          get_session_endpoint none file sid now =
            (.err404 "Session not found", none)) := by
  intro sid now file
  constructor
  · cases file with
    | none => simp [load_session, load_transcript, newSession]
    | some f => simp [load_session, load_transcript, newSession, List.isEmpty_iff]
  · intro f hf he
    subst hf
    simp [get_session_endpoint, load_session, load_transcript, newSession, he]

/-- Claim C10 (witness): the theorem applied to an empty transcript file
(404) and to a non-empty one (loadable). -/
theorem c10_witness :
    get_session_endpoint none (some ⟨"s", "t", []⟩) "s" "t" =
      (.err404 "Session not found", none)
    ∧ (load_session "s" "t" (some ⟨"s", "t", [⟨"session_start", []⟩]⟩)).isSome := by
  constructor
  · exact (c10_load "s" "t" (some ⟨"s", "t", []⟩)).2 _ rfl rfl
  · exact (c10_load "s" "t" _).1.mpr ⟨_, rfl, by simp⟩

end StrandsUI
